import Mathlib

set_option autoImplicit false

/-!
Shallow embedding of `dart_report.py` (DART annual-report download pipeline).

Modelling conventions:
* A pandas cell is `Option String`: `none` models NaN/null, `some s` a string value.
  `Series.astype(str)` turns NaN into the literal string "nan", which we model
  explicitly, because the order of `astype(str)` and `dropna` matters in the source.
* The filesystem fragment is an association list from path to content; a write
  (`open(path, 'w')`) prepends, and lookups see the most recent entry first.
* Network calls and archive/XML decoding are abstracted as `Except`-valued inputs
  of the environment; `PyErr` stands for the Python exceptions that can arise.
* `requests`/`zipfile`/`read_xml` failures inside a `try` block are modelled by the
  corresponding `Except.error` branch being caught; code outside a `try` block
  propagates its error in the function's result.
-/

namespace DartReport

/-- A pandas cell: `none` is NaN/null, `some s` a string value. -/
abbrev Cell := Option String

/-- One row of the corp-code table: columns `corp_name`, `corp_code`, `stock_code`
(the source also parses a `modify_date` column which is discarded by the
column selection on line 58 and never used; it is not modelled). -/
structure Row where
  corp_name : Cell
  corp_code : Cell
  stock_code : Cell
  deriving Repr, DecidableEq

/-- Python exceptions relevant to this script. -/
inductive PyErr where
  | requestError (msg : String)
  | parseError (msg : String)
  | otherError (msg : String)
  deriving Repr, DecidableEq

/-- `corp_code.csv`, the registry-cache file (line 36). -/
def CSV_PATH : String := "corp_code.csv"

/-- `dart_reports`, the report output directory (line 28). -/
def OUTPUT_DIR : String := "dart_reports"

/-- The hardcoded watch-list `TOP_10_COMPANIES` (lines 13-24), in insertion order. -/
def TOP_10_COMPANIES : List (String × String) :=
  [("삼성전자", "005930"),
   ("SK하이닉스", "000660"),
   ("LG에너지솔루션", "373220"),
   ("삼성바이오로직스", "207940"),
   ("현대차", "005380"),
   ("LG화학", "051910"),
   ("기아", "000270"),
   ("셀트리온", "068270"),
   ("POSCO홀딩스", "005490"),
   ("NAVER", "035420")]

/-- Python `s[:n]` on a string: the first `n` characters. -/
def takeChars (n : Nat) (s : String) : String := String.mk (s.toList.take n)

/-- Python `str.zfill(w)`: left-pad with `'0'` to total width `w`, zeros inserted
after a leading sign if present; strings already of width `≥ w` are unchanged. -/
def zfill (w : Nat) (s : String) : String :=
  if w ≤ s.toList.length then s
  else
    match s.toList with
    | '+' :: rest => String.mk ('+' :: (List.replicate (w - s.toList.length) '0' ++ rest))
    | '-' :: rest => String.mk ('-' :: (List.replicate (w - s.toList.length) '0' ++ rest))
    | cs => String.mk (List.replicate (w - s.toList.length) '0' ++ cs)

/-- pandas `.astype(str)` on one cell: a NaN cell becomes the *string* `"nan"`;
a present value keeps its string form. The result is never null. -/
def cellAstypeStr (c : Cell) : Cell := some (c.getD "nan")

/-- Lines 54-58 of `get_corp_codes`:
`df['corp_code'] = df['corp_code'].astype(str).str.zfill(8)`,
`df['stock_code'] = df['stock_code'].astype(str)`,
`df = df.dropna(subset=['stock_code'])` (keeps rows whose `stock_code` cell is
non-null — note that after `astype(str)` no cell is null), then the column
selection `df[['corp_name', 'corp_code', 'stock_code']]` (identity here). -/
def buildTable (raw : List Row) : List Row :=
  let step := raw.map fun r =>
    { r with corp_code := (cellAstypeStr r.corp_code).map (zfill 8),
             stock_code := cellAstypeStr r.stock_code }
  step.filter fun r => r.stock_code.isSome

/-- The filesystem fragment: association list from path to file content. -/
abbrev FS := List (String × String)

/-- `os.path.exists` / reading a file: the most recent entry for the path. -/
def lookupFile (fs : FS) (p : String) : Option String :=
  (fs.find? fun e => e.1 == p).map (·.2)

/-- `open(path, 'w')` followed by a full write: create or overwrite. -/
def setFile (fs : FS) (p c : String) : FS := (p, c) :: fs

/-- Split a character list at every occurrence of `sep`; always returns at least
one (possibly empty) chunk. -/
def splitOnChar (sep : Char) : List Char → List (List Char)
  | [] => [[]]
  | c :: cs =>
    if c = sep then [] :: splitOnChar sep cs
    else
      match splitOnChar sep cs with
      | [] => [[c]]
      | f :: rest => (c :: f) :: rest

/-- A CSV field read back under `dtype=str`: an empty field is NaN (pandas reads
empty fields as missing even when the column dtype is `str`). -/
def strCell (cs : List Char) : Cell :=
  if cs.isEmpty then none else some (String.mk cs)

/-- One CSV field as written by `to_csv`: NaN becomes the empty field. -/
def cellOut (c : Cell) : List Char := (c.getD "").toList

/-- One data line as written by `df.to_csv` for a three-column frame. -/
def csvLine (r : Row) : List Char :=
  cellOut r.corp_name ++ ',' :: (cellOut r.corp_code ++ ',' :: cellOut r.stock_code)

/-- The header line `corp_name,corp_code,stock_code` written by `to_csv`. -/
def headerChars : List Char := "corp_name,corp_code,stock_code".toList

/-- `df.to_csv(csv_path, index=False)` (line 60): header, then one line per row,
each line terminated by a newline. -/
def writeCsv (t : List Row) : String :=
  String.mk (headerChars ++ '\n' :: (t.map fun r => csvLine r ++ ['\n']).flatten)

/-- Parse one data line the way `pd.read_csv` does for a three-column header:
missing trailing fields are filled with NaN; a line with more fields than the
header raises `ParserError`. -/
def parseLine (line : List Char) : Except PyErr Row :=
  match splitOnChar ',' line with
  | [a] => .ok ⟨strCell a, none, none⟩
  | [a, b] => .ok ⟨strCell a, strCell b, none⟩
  | [a, b, c] => .ok ⟨strCell a, strCell b, strCell c⟩
  | _ => .error (.parseError "ParserError")

/-- `pd.read_csv(csv_path, dtype={'stock_code': str, 'corp_code': str})` (line 40):
text-typed parse of the cache file. Blank lines are skipped (pandas default);
a file with no non-blank lines raises `EmptyDataError`; the first non-blank line
is the header. Raised errors are returned as `Except.error`. -/
def readCsvChars (cs : List Char) : Except PyErr (List Row) :=
  match (splitOnChar '\n' cs).filter (fun l => !l.isEmpty) with
  | [] => .error (.parseError "EmptyDataError")
  | _header :: body => body.mapM parseLine

/-- `pd.read_csv` on a whole file content given as a string. -/
def readCsvStr (s : String) : Except PyErr (List Row) := readCsvChars s.toList

/-- Environment of `get_corp_codes`: the filesystem, and the abstracted outcome of
lines 46-52 (`requests.get` + `raise_for_status` + `ZipFile` + `read_xml`):
either the parsed raw XML rows or the exception that the pipeline raised. -/
structure CorpEnv where
  fs : FS
  bulkFetch : Except PyErr (List Row)

/-- Result of a `get_corp_codes` run: the boundary outcome (`.error e` means the
exception `e` propagated to the caller; `.ok none` is Python's `return None`;
`.ok (some t)` returns the table `t`), the filesystem after the run, and how many
network requests were issued. -/
structure GccOut where
  result : Except PyErr (Option (List Row))
  fs : FS
  netCalls : Nat

/-- `get_corp_codes(api_key)` (lines 32-69). The cache-hit branch (lines 37-41)
runs `pd.read_csv` *outside* the `try` block, so a parse failure there
propagates; the fresh-download branch (lines 43-69) is wrapped in
`try/except`, which catches every exception and returns `None`. -/
def get_corp_codes (env : CorpEnv) : GccOut :=
  match lookupFile env.fs CSV_PATH with
  | some content =>
    match readCsvStr content with
    | .error e => ⟨.error e, env.fs, 0⟩
    | .ok t => ⟨.ok (some t), env.fs, 0⟩
  | none =>
    match env.bulkFetch with
    | .error _ => ⟨.ok none, env.fs, 1⟩
    | .ok raw =>
      let t := buildTable raw
      ⟨.ok (some t), setFile env.fs CSV_PATH (writeCsv t), 1⟩

/-- One item of the listing endpoint's `list` array (only the fields the code
reads). -/
structure ListingItem where
  rcept_no : String
  rcept_dt : String
  deriving Repr, DecidableEq

/-- A decoded listing response body: `status`, `message`, and the `list` array
(`data.get('list')` missing or empty is modelled by the empty list). -/
structure Listing where
  status : String
  message : String
  items : List ListingItem
  deriving Repr, DecidableEq

/-- Environment of `download_annual_reports`: the filesystem, the abstracted
outcome of the listing request (lines 87-89), and the outcome of each report
document request (lines 118-119), keyed by `rcept_no`. -/
structure DlEnv where
  fs : FS
  listing : Except PyErr Listing
  fetchDoc : String → Except PyErr String

/-- Line 108: `f"[{company_name}]_[{file_year}년도공시]_사업보고서.html"`. -/
def reportFilename (company fileYear : String) : String :=
  "[" ++ company ++ "]_[" ++ fileYear ++ "년도공시]_사업보고서.html"

/-- Line 109: `os.path.join(OUTPUT_DIR, filename)`. -/
def reportFilepath (company fileYear : String) : String :=
  OUTPUT_DIR ++ "/" ++ reportFilename company fileYear

/-- The download loop (lines 99-125). Returns the filesystem after the loop and
`some e` when an exception `e` escaped the loop body (to be caught by the
function-level handler). `count` is `download_count`; the loop breaks once
`count ≥ years`, skips (without counting) items whose derived filepath already
exists, and otherwise fetches and writes the document, incrementing `count`.
`time.sleep(0.5)` is a no-op here. -/
def dlLoop (fetchDoc : String → Except PyErr String) (company : String) (years : Nat) :
    List ListingItem → Nat → FS → FS × Option PyErr
  | [], _, fs => (fs, none)
  | item :: rest, count, fs =>
    if years ≤ count then (fs, none)
    else
      let fp := reportFilepath company (takeChars 4 item.rcept_dt)
      if (lookupFile fs fp).isSome then
        dlLoop fetchDoc company years rest count fs
      else
        match fetchDoc item.rcept_no with
        | .error e => (fs, some e)
        | .ok doc => dlLoop fetchDoc company years rest (count + 1) (setFile fs fp doc)

/-- The body of the `try` block of `download_annual_reports` (lines 87-125):
the filesystem it leaves behind, and `some e` when it raised exception `e`. -/
def dl_body (env : DlEnv) (company : String) (years : Nat) : FS × Option PyErr :=
  match env.listing with
  | .error e => (env.fs, some e)
  | .ok l =>
    if l.status ≠ "000" then (env.fs, none)
    else if l.items.isEmpty then (env.fs, none)
    else dlLoop env.fetchDoc company years l.items 0 env.fs

/-- `download_annual_reports(api_key, corp_code, company_name, years)`
(lines 72-130): the `except` clauses (lines 127-130) catch every exception of
the body, print, and fall through, so the function always returns normally;
its only outcome is the filesystem. -/
def download_annual_reports (env : DlEnv) (company : String) (years : Nat) : FS :=
  (dl_body env company years).1

/-- One row of `target_companies` after the merge (line 145): the watch-list
columns (with suffix `_top10` on the clashing name column) plus the registry
columns; `corp_name`/`corp_code` are null when the ticker had no match. -/
structure MergedRow where
  corp_name_top10 : String
  stock_code : String
  corp_name : Cell
  corp_code : Cell
  deriving Repr, DecidableEq

/-- `pd.merge(top10_df, corp_codes_df, on='stock_code', how='left', suffixes=('_top10', ''))`
(line 145): each watch-list row, in order, paired with every matching registry
row (in registry order), or with null registry columns when there is no match. -/
def mergeLeft (watch : List (String × String)) (reg : List Row) : List MergedRow :=
  watch.flatMap fun w =>
    match reg.filter (fun r => r.stock_code == some w.2) with
    | [] => [⟨w.1, w.2, none, none⟩]
    | m :: ms => (m :: ms).map fun r => ⟨w.1, w.2, r.corp_name, r.corp_code⟩

/-- Lines 147-148: the merged rows with a null `corp_code`, reported as
unresolved. -/
def missingOf (merged : List MergedRow) : List MergedRow :=
  merged.filter fun m => m.corp_code.isNone

/-- Line 153: `target_companies.dropna(subset=['corp_code'])`, the rows actually
passed to `download_annual_reports`. -/
def targetsOf (merged : List MergedRow) : List MergedRow :=
  merged.filter fun m => m.corp_code.isSome

/-- Paths present in `fs'` but absent from `fs`: the files a run created on top
of the initial filesystem `fs`. -/
def newPaths (fs fs' : FS) : List String :=
  (fs'.map Prod.fst).filter fun p => (lookupFile fs p).isNone

/-- The derived filepath of a listing item for a given company. -/
def itemPath (company : String) (item : ListingItem) : String :=
  reportFilepath company (takeChars 4 item.rcept_dt)

/-! Concrete scenario used by several claims: the spec's "company with 5
matching filings in the date window and a request for `years=3`". The filing
dates carry four distinct filing years across the window (a fifth distinct
year cannot occur: the window spans four calendar years). Documents and
listing responses always succeed. -/

/-- Five filings, newest first as the API returns them, with filing years
2026, 2025, 2024, 2023, 2023. -/
def fiveFilings : List ListingItem :=
  [⟨"20260311000001", "20260311"⟩,
   ⟨"20250312000001", "20250312"⟩,
   ⟨"20240311000001", "20240311"⟩,
   ⟨"20230310000001", "20230310"⟩,
   ⟨"20230102000001", "20230102"⟩]

/-- A successful listing response carrying the given items. -/
def okListing (items : List ListingItem) : Except PyErr Listing :=
  .ok ⟨"000", "정상", items⟩

/-- A document fetch that always succeeds. -/
def docOf : String → Except PyErr String := fun r => .ok ("doc:" ++ r)

/-- Filesystem after the first run of the fetch on an empty directory. -/
def firstRunFs : FS := download_annual_reports ⟨[], okListing fiveFilings, docOf⟩ "삼성전자" 3

/-- Filesystem after a second identical run. -/
def secondRunFs : FS :=
  download_annual_reports ⟨firstRunFs, okListing fiveFilings, docOf⟩ "삼성전자" 3

/-- Filesystem after a third identical run. -/
def thirdRunFs : FS :=
  download_annual_reports ⟨secondRunFs, okListing fiveFilings, docOf⟩ "삼성전자" 3

/-- A registry table with a single listed company, for resolver scenarios. -/
def demoReg : List Row := [⟨some "삼성전자", some "00126380", some "005930"⟩]

/-- A parsed bulk-dataset row for an unlisted entity: `stock_code` is NaN in
the XML, as for every corporation without a public listing. -/
def nanRawRow : Row := ⟨some "가상회사", some "126380", none⟩

/-- An environment whose cache file exists but is empty: `pd.read_csv` raises
`EmptyDataError` on it. -/
def emptyCacheEnv : CorpEnv := ⟨[(CSV_PATH, "")], .ok []⟩

/-- An environment with no cache file whose bulk download fails with a network
error. -/
def netFailEnv : CorpEnv := ⟨[], .error (.requestError "ConnectionError")⟩

/-- A listing response with a non-success status, as DART returns for an
invalid key or when no data matches; the document fetcher is irrelevant here. -/
def badStatusEnv : DlEnv := ⟨[], .ok ⟨"013", "조회된 데이타가 없습니다", []⟩, docOf⟩

/-- A filesystem already holding the 2026 report file for 삼성전자. -/
def preExistingFs : FS := [(reportFilepath "삼성전자" "2026", "old")]

/-- A fetch environment over `preExistingFs` with the five-filing listing. -/
def preExistingEnv : DlEnv := ⟨preExistingFs, okListing fiveFilings, docOf⟩

/-- A fetch environment whose listing request fails with a network error. -/
def listFailEnv : DlEnv := ⟨[], .error (.requestError "Timeout"), docOf⟩

/-- A one-row parsed bulk dataset: a listed company whose registry code lost
its leading zeros in the XML number inference. -/
def demoRaw : List Row := [⟨some "삼성전자", some "126380", some "005930"⟩]

/-- A watch-list with one unresolvable ticker and one resolvable one. -/
def demoWatch : List (String × String) := [("테스트", "999999"), ("삼성전자", "005930")]

/-- An environment whose cache file holds a previously built table. -/
def goodCacheEnv : CorpEnv := ⟨[(CSV_PATH, writeCsv (buildTable demoRaw))], .ok []⟩

/-- A CSV-safe string: nonempty, and free of the separator characters, so that
`to_csv` writes it unquoted and `read_csv` reads it back verbatim. -/
abbrev csvSafe (s : String) : Prop :=
  s.toList ≠ [] ∧ ',' ∉ s.toList ∧ '\n' ∉ s.toList

/-- A CSV-safe cell: present, with a CSV-safe value. -/
def cellSafe : Cell → Prop
  | none => False
  | some s => csvSafe s

instance (c : Cell) : Decidable (cellSafe c) :=
  match c with
  | none => inferInstanceAs (Decidable False)
  | some s => inferInstanceAs (Decidable (csvSafe s))

/-- All three cells of the row are present and CSV-safe. -/
def wfRow (r : Row) : Prop :=
  cellSafe r.corp_name ∧ cellSafe r.corp_code ∧ cellSafe r.stock_code

instance (r : Row) : Decidable (wfRow r) := inferInstanceAs (Decidable (_ ∧ _ ∧ _))

/-- Every row of the table is CSV-safe. -/
def wfTable (t : List Row) : Prop := ∀ r ∈ t, wfRow r

instance (t : List Row) : Decidable (wfTable t) := List.decidableBAll _ t

theorem toList_mk (l : List Char) : (String.mk l).toList = l := rfl

theorem mk_toList (s : String) : String.mk s.toList = s := rfl

theorem lookupFile_setFile_self (fs : FS) (p c : String) :
    lookupFile (setFile fs p c) p = some c := by
  simp [lookupFile, setFile, List.find?]

theorem lookupFile_setFile_ne (fs : FS) (p q c : String) (h : q ≠ p) :
    lookupFile (setFile fs p c) q = lookupFile fs q := by
  have hb : (p == q) = false := by simp [Ne.symm h]
  simp [lookupFile, setFile, List.find?, hb]

theorem lookupFile_isSome_of_mem (fs : FS) (p : String) (h : p ∈ fs.map Prod.fst) :
    (lookupFile fs p).isSome := by
  rw [lookupFile, Option.isSome_map']
  rw [List.find?_isSome]
  obtain ⟨e, he, hp⟩ := List.mem_map.1 h
  exact ⟨e, he, by simp [hp]⟩

theorem newPaths_append_left (ws fs : FS) :
    newPaths fs (ws ++ fs) =
      (ws.map Prod.fst).filter (fun p => (lookupFile fs p).isNone) := by
  unfold newPaths
  rw [List.map_append, List.filter_append]
  have h0 : (fs.map Prod.fst).filter (fun p => (lookupFile fs p).isNone) = [] := by
    rw [List.filter_eq_nil_iff]
    intro p hp
    have := lookupFile_isSome_of_mem fs p hp
    simp_all [Option.isNone]
    cases h : lookupFile fs p <;> simp_all
  rw [h0, List.append_nil]

theorem newPaths_append_length (ws fs : FS) :
    (newPaths fs (ws ++ fs)).length ≤ ws.length := by
  rw [newPaths_append_left]
  calc ((ws.map Prod.fst).filter _).length ≤ (ws.map Prod.fst).length :=
        List.length_filter_le _ _
    _ = ws.length := List.length_map _ _

theorem splitOnChar_of_not_mem (sep : Char) (a : List Char) (h : sep ∉ a) :
    splitOnChar sep a = [a] := by
  induction a with
  | nil => rfl
  | cons c cs ih =>
    have hc : ¬c = sep := by rintro rfl; exact h (List.mem_cons_self c cs)
    have h' : sep ∉ cs := fun hm => h (List.mem_cons_of_mem _ hm)
    simp [splitOnChar, hc, ih h']

theorem splitOnChar_append (sep : Char) (a b : List Char) (h : sep ∉ a) :
    splitOnChar sep (a ++ sep :: b) = a :: splitOnChar sep b := by
  induction a with
  | nil => simp [splitOnChar]
  | cons c cs ih =>
    have hc : ¬c = sep := by rintro rfl; exact h (List.mem_cons_self c cs)
    have h' : sep ∉ cs := fun hm => h (List.mem_cons_of_mem _ hm)
    simp [splitOnChar, hc, ih h']

theorem cellOut_some (s : String) : cellOut (some s) = s.toList := rfl

theorem parseLine_csvLine (r : Row) (h : wfRow r) : parseLine (csvLine r) = .ok r := by
  obtain ⟨h1, h2, h3⟩ := h
  obtain ⟨r1, r2, r3⟩ := r
  cases r1 with
  | none => exact absurd h1 id
  | some a =>
  cases r2 with
  | none => exact absurd h2 id
  | some b =>
  cases r3 with
  | none => exact absurd h3 id
  | some c =>
  obtain ⟨ha0, ha1, _⟩ := h1
  obtain ⟨hb0, hb1, _⟩ := h2
  obtain ⟨hc0, hc1, _⟩ := h3
  unfold parseLine csvLine
  rw [cellOut_some, cellOut_some, cellOut_some,
    splitOnChar_append ',' a.toList _ ha1,
    splitOnChar_append ',' b.toList _ hb1,
    splitOnChar_of_not_mem ',' c.toList hc1]
  simp only [strCell, List.isEmpty_iff, mk_toList]
  rw [if_neg ha0, if_neg hb0, if_neg hc0]

theorem csvLine_ne_nil (r : Row) : csvLine r ≠ [] := by
  unfold csvLine
  cases h : cellOut r.corp_name <;> simp [h]

theorem not_newline_mem_csvLine (r : Row) (h : wfRow r) : '\n' ∉ csvLine r := by
  obtain ⟨h1, h2, h3⟩ := h
  obtain ⟨r1, r2, r3⟩ := r
  cases r1 with
  | none => exact absurd h1 id
  | some a =>
  cases r2 with
  | none => exact absurd h2 id
  | some b =>
  cases r3 with
  | none => exact absurd h3 id
  | some c =>
  obtain ⟨-, -, ha2⟩ := h1
  obtain ⟨-, -, hb2⟩ := h2
  obtain ⟨-, -, hc2⟩ := h3
  simp [csvLine, cellOut_some, List.mem_append]
  exact ⟨ha2, hb2, hc2⟩

theorem splitOnChar_csvBody (t : List Row) (h : wfTable t) :
    splitOnChar '\n' ((t.map fun r => csvLine r ++ ['\n']).flatten) =
      t.map csvLine ++ [[]] := by
  induction t with
  | nil => rfl
  | cons r t ih =>
    have hr : wfRow r := h r (List.mem_cons_self r t)
    have ht : wfTable t := fun x hx => h x (List.mem_cons_of_mem _ hx)
    have : ((r :: t).map fun x => csvLine x ++ ['\n']).flatten =
        csvLine r ++ '\n' :: (t.map fun x => csvLine x ++ ['\n']).flatten := by
      simp
    rw [this, splitOnChar_append '\n' _ _ (not_newline_mem_csvLine r hr), ih ht]
    simp

theorem mapM_parseLine_csvLine (t : List Row) (h : wfTable t) :
    (t.map csvLine).mapM parseLine = .ok t := by
  induction t with
  | nil => rfl
  | cons r t ih =>
    have hr : wfRow r := h r (List.mem_cons_self r t)
    have ht : wfTable t := fun x hx => h x (List.mem_cons_of_mem _ hx)
    rw [List.map_cons, List.mapM_cons, parseLine_csvLine r hr, ih ht]
    rfl

/-- Round-trip stability of the cache file: a CSV-safe table written by
`df.to_csv` is read back verbatim by the text-typed `pd.read_csv`. -/
theorem readCsv_writeCsv (t : List Row) (h : wfTable t) :
    readCsvStr (writeCsv t) = .ok t := by
  unfold readCsvStr writeCsv readCsvChars
  rw [toList_mk]
  have hhdr : '\n' ∉ headerChars := by decide
  rw [splitOnChar_append '\n' headerChars _ hhdr, splitOnChar_csvBody t h]
  have hfilter : ((headerChars :: (t.map csvLine ++ [[]])).filter fun l => !l.isEmpty) =
      headerChars :: t.map csvLine := by
    rw [List.filter_cons_of_pos (by decide), List.filter_append]
    have h1 : (t.map csvLine).filter (fun l => !l.isEmpty) = t.map csvLine := by
      rw [List.filter_eq_self]
      intro a ha
      obtain ⟨r, _, rfl⟩ := List.mem_map.1 ha
      simp [csvLine_ne_nil r]
    have h2 : ([([] : List Char)].filter fun l => !l.isEmpty) = [] := by decide
    rw [h1, h2, List.append_nil]
  rw [hfilter]
  exact mapM_parseLine_csvLine t h

theorem dlLoop_cons (fd : String → Except PyErr String) (c : String) (y : Nat)
    (item : ListingItem) (rest : List ListingItem) (count : Nat) (fs : FS) :
    dlLoop fd c y (item :: rest) count fs =
      if y ≤ count then (fs, none)
      else if (lookupFile fs (itemPath c item)).isSome then
        dlLoop fd c y rest count fs
      else
        match fd item.rcept_no with
        | .error e => (fs, some e)
        | .ok doc => dlLoop fd c y rest (count + 1) (setFile fs (itemPath c item) doc) :=
  rfl

theorem dlLoop_fs_prefix (fd : String → Except PyErr String) (c : String) (y : Nat) :
    ∀ (l : List ListingItem) (count : Nat) (fs : FS),
      ∃ ws : FS, (dlLoop fd c y l count fs).1 = ws ++ fs ∧ ws.length ≤ y - count := by
  intro l
  induction l with
  | nil => intro count fs; exact ⟨[], rfl, by simp⟩
  | cons item rest ih =>
    intro count fs
    rw [dlLoop_cons]
    by_cases hc : y ≤ count
    · rw [if_pos hc]; exact ⟨[], rfl, by simp⟩
    · rw [if_neg hc]
      by_cases hex : (lookupFile fs (itemPath c item)).isSome
      · rw [if_pos hex]; exact ih count fs
      · rw [if_neg hex]
        cases hfd : fd item.rcept_no with
        | error e => exact ⟨[], rfl, by simp⟩
        | ok doc =>
          obtain ⟨ws, hws, hlen⟩ := ih (count + 1) (setFile fs (itemPath c item) doc)
          refine ⟨ws ++ [(itemPath c item, doc)], ?_, ?_⟩
          · rw [List.append_assoc]
            simpa [setFile] using hws
          · have hlt : count < y := Nat.lt_of_not_le hc
            rw [List.length_append]
            simp only [List.length_cons, List.length_nil]
            omega

theorem dlLoop_preserve (fd : String → Except PyErr String) (c : String) (y : Nat)
    (p content : String) :
    ∀ (l : List ListingItem) (count : Nat) (fs : FS), lookupFile fs p = some content →
      lookupFile (dlLoop fd c y l count fs).1 p = some content := by
  intro l
  induction l with
  | nil => intro count fs h; exact h
  | cons item rest ih =>
    intro count fs h
    rw [dlLoop_cons]
    by_cases hc : y ≤ count
    · rw [if_pos hc]; exact h
    · rw [if_neg hc]
      by_cases hex : (lookupFile fs (itemPath c item)).isSome
      · rw [if_pos hex]; exact ih count fs h
      · rw [if_neg hex]
        cases hfd : fd item.rcept_no with
        | error e => exact h
        | ok doc =>
          apply ih
          have hne : p ≠ itemPath c item := by
            intro he
            exact hex (by rw [← he, h]; rfl)
          rw [lookupFile_setFile_ne fs (itemPath c item) p doc hne]
          exact h

theorem dlLoop_skip (fd : String → Except PyErr String) (c : String) (y : Nat)
    (item : ListingItem) (rest : List ListingItem) (count : Nat) (fs : FS)
    (h : (lookupFile fs (itemPath c item)).isSome) :
    dlLoop fd c y (item :: rest) count fs = dlLoop fd c y rest count fs := by
  rw [dlLoop_cons]
  by_cases hc : y ≤ count
  · rw [if_pos hc]
    cases rest with
    | nil => rfl
    | cons i r => rw [dlLoop_cons, if_pos hc]
  · rw [if_neg hc, if_pos h]

theorem dlLoop_noop (fd : String → Except PyErr String) (c : String) (y : Nat) :
    ∀ (l : List ListingItem) (fs : FS) (count : Nat),
      (∀ it ∈ l, (lookupFile fs (itemPath c it)).isSome) →
      dlLoop fd c y l count fs = (fs, none) := by
  intro l
  induction l with
  | nil => intro fs count _; rfl
  | cons item rest ih =>
    intro fs count h
    rw [dlLoop_skip fd c y item rest count fs (h item (List.mem_cons_self _ _))]
    exact ih fs count fun it hit => h it (List.mem_cons_of_mem _ hit)

theorem length_mk (l : List Char) : (String.mk l).length = l.length := rfl

theorem length_eq_toList_length (s : String) : s.length = s.toList.length := rfl

theorem zfill_length (w : Nat) (s : String) (h : s.toList.length ≤ w) :
    (zfill w s).length = w := by
  unfold zfill
  split
  · rw [length_eq_toList_length]; omega
  · rename_i hw
    split <;>
      rename_i heq <;>
      rw [length_mk] <;>
      simp only [List.length_cons, List.length_append, List.length_replicate] <;>
      [skip; skip; omega] <;>
      · have := congrArg List.length heq
        simp only [List.length_cons] at this
        omega

theorem newPaths_self_length (fs : FS) : (newPaths fs fs).length = 0 := by
  have h := newPaths_append_length [] fs
  simpa using h

/-- Cache-hit behavior of `get_corp_codes`: no network call, no filesystem
change, and the outcome of parsing the cache file directly. -/
theorem gcc_cache_hit (env : CorpEnv) (content : String)
    (h : lookupFile env.fs CSV_PATH = some content) :
    (get_corp_codes env).netCalls = 0 ∧
    (get_corp_codes env).fs = env.fs ∧
    (get_corp_codes env).result = (readCsvStr content).map some := by
  simp only [get_corp_codes, h]
  cases hr : readCsvStr content <;> simp [hr, Except.map]

theorem mergeLeft_mem_cases (watch : List (String × String)) (reg : List Row)
    (m : MergedRow) (hm : m ∈ mergeLeft watch reg) :
    (m.corp_name_top10, m.stock_code) ∈ watch ∧
    ((m.corp_name = none ∧ m.corp_code = none ∧
        ∀ r ∈ reg, r.stock_code ≠ some m.stock_code) ∨
      (∃ r ∈ reg, r.stock_code = some m.stock_code ∧
        m.corp_name = r.corp_name ∧ m.corp_code = r.corp_code)) := by
  unfold mergeLeft at hm
  obtain ⟨w, hw, hmw⟩ := List.mem_flatMap.1 hm
  cases hfil : reg.filter (fun r => r.stock_code == some w.2) with
  | nil =>
    rw [hfil] at hmw
    have hme : m = ⟨w.1, w.2, none, none⟩ := List.mem_singleton.1 hmw
    subst hme
    refine ⟨by simpa using hw, Or.inl ⟨rfl, rfl, ?_⟩⟩
    intro r hr
    have := List.filter_eq_nil_iff.1 hfil r hr
    simpa using this
  | cons a as =>
    rw [hfil] at hmw
    obtain ⟨r, hr, hre⟩ := List.mem_map.1 hmw
    rw [← hfil] at hr
    have hr' := List.mem_filter.1 hr
    have hstock : r.stock_code = some w.2 := by simpa using hr'.2
    subst hre
    exact ⟨by simpa using hw, Or.inr ⟨r, hr'.1, hstock, rfl, rfl⟩⟩

theorem mergeLeft_mem_of_unmatched (watch : List (String × String)) (reg : List Row)
    (w : String × String) (hw : w ∈ watch)
    (h : ∀ r ∈ reg, r.stock_code ≠ some w.2) :
    (⟨w.1, w.2, none, none⟩ : MergedRow) ∈ mergeLeft watch reg := by
  unfold mergeLeft
  apply List.mem_flatMap.2
  refine ⟨w, hw, ?_⟩
  have hfil : reg.filter (fun r => r.stock_code == some w.2) = [] := by
    rw [List.filter_eq_nil_iff]
    intro r hr
    simpa using h r hr
  rw [hfil]
  exact List.mem_singleton.2 rfl

theorem mergeLeft_mem_of_matched (watch : List (String × String)) (reg : List Row)
    (w : String × String) (r : Row) (hw : w ∈ watch) (hr : r ∈ reg)
    (h : r.stock_code = some w.2) :
    (⟨w.1, w.2, r.corp_name, r.corp_code⟩ : MergedRow) ∈ mergeLeft watch reg := by
  unfold mergeLeft
  apply List.mem_flatMap.2
  refine ⟨w, hw, ?_⟩
  have hrf : r ∈ reg.filter (fun x => x.stock_code == some w.2) :=
    List.mem_filter.2 ⟨hr, by simpa using h⟩
  cases hfil : reg.filter (fun x => x.stock_code == some w.2) with
  | nil => rw [hfil] at hrf; exact absurd hrf (List.not_mem_nil r)
  | cons a as =>
    rw [hfil] at hrf
    exact List.mem_map.2 ⟨r, hrf, rfl⟩

/-! Claim theorems. -/

/-- C6: if the cache file exists, `get_corp_codes` issues no network request,
leaves the filesystem unchanged, and its outcome equals parsing the cache file
content directly with the text-typed reader the code uses — numeric-looking
code columns are kept as text, so leading zeros survive verbatim. -/
theorem cache_hit_reads_file_only (env : CorpEnv) (content : String)
    (h : lookupFile env.fs CSV_PATH = some content) :
    (get_corp_codes env).netCalls = 0 ∧
    (get_corp_codes env).fs = env.fs ∧
    (get_corp_codes env).result = (readCsvStr content).map some :=
  gcc_cache_hit env content h

/-- Witness for C6 at a concrete cached environment. -/
theorem cache_hit_reads_file_only_witness :
    (get_corp_codes goodCacheEnv).netCalls = 0 ∧
    (get_corp_codes goodCacheEnv).fs = goodCacheEnv.fs ∧
    (get_corp_codes goodCacheEnv).result =
      (readCsvStr (writeCsv (buildTable demoRaw))).map some :=
  cache_hit_reads_file_only goodCacheEnv (writeCsv (buildTable demoRaw)) rfl

/-- C7: a listing response with a non-success `status` writes no files and
raises nothing: the fetch returns normally with the filesystem unchanged, so
the orchestrator proceeds to the next company. -/
theorem bad_status_writes_nothing (env : DlEnv) (company : String) (years : Nat)
    (l : Listing) (hl : env.listing = .ok l) (hs : l.status ≠ "000") :
    download_annual_reports env company years = env.fs ∧
    (dl_body env company years).2 = none := by
  have hb : dl_body env company years = (env.fs, none) := by
    simp only [dl_body, hl]
    rw [if_pos hs]
  constructor
  · show (dl_body env company years).1 = env.fs
    rw [hb]
  · rw [hb]

/-- Witness for C7 at a concrete non-success response. -/
theorem bad_status_writes_nothing_witness :
    download_annual_reports badStatusEnv "기아" 3 = badStatusEnv.fs ∧
    (dl_body badStatusEnv "기아" 3).2 = none :=
  bad_status_writes_nothing badStatusEnv "기아" 3
    ⟨"013", "조회된 데이타가 없습니다", []⟩ rfl (by decide)

/-- C10: the registry-cache build is atomic with respect to the cache file:
whenever `get_corp_codes` returns `None` the filesystem is untouched and the
cache file is still absent (so a later run retakes the fresh-download path);
the filesystem changes only on the full success path, and then by writing the
completely built table to the cache file. -/
theorem cache_build_atomic (env : CorpEnv) :
    ((get_corp_codes env).result = .ok none →
      (get_corp_codes env).fs = env.fs ∧ lookupFile env.fs CSV_PATH = none) ∧
    ((get_corp_codes env).fs ≠ env.fs →
      ∃ raw, env.bulkFetch = .ok raw ∧
        (get_corp_codes env).result = .ok (some (buildTable raw)) ∧
        (get_corp_codes env).fs = setFile env.fs CSV_PATH (writeCsv (buildTable raw))) := by
  cases hl : lookupFile env.fs CSV_PATH with
  | some content =>
    cases hr : readCsvStr content with
    | error e =>
      have hg : get_corp_codes env = ⟨.error e, env.fs, 0⟩ := by
        simp only [get_corp_codes, hl, hr]
      rw [hg]
      exact ⟨fun hc => by simp at hc, fun hc => absurd rfl hc⟩
    | ok t =>
      have hg : get_corp_codes env = ⟨.ok (some t), env.fs, 0⟩ := by
        simp only [get_corp_codes, hl, hr]
      rw [hg]
      exact ⟨fun hc => by simp at hc, fun hc => absurd rfl hc⟩
  | none =>
    cases hb : env.bulkFetch with
    | error e =>
      have hg : get_corp_codes env = ⟨.ok none, env.fs, 1⟩ := by
        simp only [get_corp_codes, hl, hb]
      rw [hg]
      exact ⟨fun _ => ⟨rfl, rfl⟩, fun hc => absurd rfl hc⟩
    | ok raw =>
      have hg : get_corp_codes env =
          ⟨.ok (some (buildTable raw)),
            setFile env.fs CSV_PATH (writeCsv (buildTable raw)), 1⟩ := by
        simp only [get_corp_codes, hl, hb]
      rw [hg]
      exact ⟨fun hc => by simp at hc, fun _ => ⟨raw, rfl, rfl, rfl⟩⟩

/-- Witness for C10 at a concrete failed bulk download. -/
theorem cache_build_atomic_witness :
    (get_corp_codes netFailEnv).fs = netFailEnv.fs ∧
    lookupFile netFailEnv.fs CSV_PATH = none :=
  (cache_build_atomic netFailEnv).1 rfl

/-- C9: a report file already on disk is never overwritten: any pre-existing
path keeps its exact content across a run of the report fetch. -/
theorem existing_reports_unchanged (env : DlEnv) (company : String) (years : Nat)
    (p content : String) (h : lookupFile env.fs p = some content) :
    lookupFile (download_annual_reports env company years) p = some content := by
  show lookupFile (dl_body env company years).1 p = some content
  cases hl : env.listing with
  | error e =>
    simp only [dl_body, hl]
    exact h
  | ok l =>
    simp only [dl_body, hl]
    by_cases hs : l.status ≠ "000"
    · rw [if_pos hs]; exact h
    · rw [if_neg hs]
      by_cases he : l.items.isEmpty
      · rw [if_pos he]; exact h
      · rw [if_neg he]
        exact dlLoop_preserve env.fetchDoc company years p content l.items 0 env.fs h

/-- Witness for C9: the pre-existing 2026 report survives a run whose listing
contains a 2026 filing. -/
theorem existing_reports_unchanged_witness :
    lookupFile (download_annual_reports preExistingEnv "삼성전자" 3)
      (reportFilepath "삼성전자" "2026") = some "old" :=
  existing_reports_unchanged preExistingEnv "삼성전자" 3
    (reportFilepath "삼성전자" "2026") "old" (by decide)

/-- C2: an item whose derived file already exists is skipped without consuming
the cap — the loop continues exactly as if the item were not in the listing —
and consequently a single run writes at most `years` new files, no matter how
many items are skipped as pre-existing. -/
theorem skip_does_not_consume_cap (env : DlEnv) (company : String) (years : Nat) :
    (newPaths env.fs (download_annual_reports env company years)).length ≤ years ∧
    (∀ (fd : String → Except PyErr String) (item : ListingItem)
        (rest : List ListingItem) (count : Nat) (fs : FS),
      (lookupFile fs (itemPath company item)).isSome →
      dlLoop fd company years (item :: rest) count fs =
        dlLoop fd company years rest count fs) := by
  constructor
  · show (newPaths env.fs (dl_body env company years).1).length ≤ years
    cases hl : env.listing with
    | error e =>
      simp only [dl_body, hl]
      rw [newPaths_self_length]
      exact Nat.zero_le _
    | ok l =>
      simp only [dl_body, hl]
      by_cases hs : l.status ≠ "000"
      · rw [if_pos hs]
        show (newPaths env.fs env.fs).length ≤ years
        rw [newPaths_self_length]
        exact Nat.zero_le _
      · rw [if_neg hs]
        by_cases he : l.items.isEmpty
        · rw [if_pos he]
          show (newPaths env.fs env.fs).length ≤ years
          rw [newPaths_self_length]
          exact Nat.zero_le _
        · rw [if_neg he]
          obtain ⟨ws, hws, hlen⟩ :=
            dlLoop_fs_prefix env.fetchDoc company years l.items 0 env.fs
          rw [hws]
          calc (newPaths env.fs (ws ++ env.fs)).length
              ≤ ws.length := newPaths_append_length ws env.fs
            _ ≤ years := by omega
  · intro fd item rest count fs hx
    exact dlLoop_skip fd company years item rest count fs hx

/-- Witness for C2: skipping the pre-existing 2026 item leaves the loop state
unchanged. -/
theorem skip_does_not_consume_cap_witness :
    dlLoop docOf "삼성전자" 3 [⟨"r0", "20260311"⟩] 0 preExistingFs =
      dlLoop docOf "삼성전자" 3 [] 0 preExistingFs :=
  (skip_does_not_consume_cap preExistingEnv "삼성전자" 3).2 docOf
    ⟨"r0", "20260311"⟩ [] 0 preExistingFs (by decide)

/-- C1 counterexample: with five filings in the window (filing years
2026, 2025, 2024, 2023, 2023, newest first) and `years = 3`, the first run on an
empty directory writes exactly 3 files, but a second identical run writes 1 new
file — the cap cut the first run off before the 2023 filings, whose file does
not yet exist — not 0 as claimed. -/
theorem second_run_writes_again :
    (newPaths ([] : FS) firstRunFs).length = 3 ∧
    (newPaths firstRunFs secondRunFs).length = 1 := by decide

/-- C1 (amended): the first run writes exactly 3 files — those of the first
three items, in API-provided order — and a rerun writes the files of the items
beyond the cap whose filing-year file is still absent (here one file, for
2023); a run in which every listed item's derived file already exists writes
nothing, so the runs reach a fixed point at the third run, not the second. -/
theorem first_run_caps_reruns_converge :
    (∀ (env : DlEnv) (c : String) (y : Nat) (l : Listing), env.listing = .ok l →
      (∀ it ∈ l.items, (lookupFile env.fs (itemPath c it)).isSome) →
      download_annual_reports env c y = env.fs) ∧
    newPaths ([] : FS) firstRunFs =
      [reportFilepath "삼성전자" "2024", reportFilepath "삼성전자" "2025",
        reportFilepath "삼성전자" "2026"] ∧
    newPaths firstRunFs secondRunFs = [reportFilepath "삼성전자" "2023"] ∧
    thirdRunFs = secondRunFs := by
  refine ⟨?_, by decide, by decide, by decide⟩
  intro env c y l hl hall
  show (dl_body env c y).1 = env.fs
  simp only [dl_body, hl]
  by_cases hs : l.status ≠ "000"
  · rw [if_pos hs]
  · rw [if_neg hs]
    by_cases he : l.items.isEmpty
    · rw [if_pos he]
    · rw [if_neg he]
      rw [dlLoop_noop env.fetchDoc c y l.items env.fs 0 hall]

/-- Witness for C1 (amended): the third run over the five-filing scenario is a
no-op. -/
theorem first_run_caps_reruns_converge_witness :
    download_annual_reports ⟨secondRunFs, okListing fiveFilings, docOf⟩ "삼성전자" 3 =
      secondRunFs :=
  first_run_caps_reruns_converge.1 ⟨secondRunFs, okListing fiveFilings, docOf⟩
    "삼성전자" 3 ⟨"000", "정상", fiveFilings⟩ rfl (by decide)

/-- C3 (code bug): a bulk-dataset row whose `stock_code` is absent (NaN) is
*not* dropped: `astype(str)` (line 55) turns the NaN into the string `"nan"`
before `dropna` (line 57) runs, so `dropna` finds no nulls and the row survives
into the persisted and returned table with `stock_code = "nan"`. -/
theorem nan_stock_code_not_dropped :
    nanRawRow.stock_code = none ∧
    buildTable [nanRawRow] = [⟨some "가상회사", some "00126380", some "nan"⟩] := by
  decide

/-- C4 counterexample: an existing-but-empty cache file makes `pd.read_csv`
raise `EmptyDataError`, and that exception propagates out of `get_corp_codes`
because the cache-hit branch is outside the `try` block. -/
theorem empty_cache_file_raises :
    (get_corp_codes emptyCacheEnv).result = .error (.parseError "EmptyDataError") :=
  rfl

/-- C4 (amended): no exception escapes `download_annual_reports` — its entire
body is wrapped by handlers, so the function's outcome is exactly the body's
filesystem, and a listing network error returns normally with no files
written — and none escapes the fresh-download path of `get_corp_codes`; only a
cache-file load failure can propagate (see the counterexample). -/
theorem exceptions_confined (cenv : CorpEnv) (denv : DlEnv) (company : String)
    (years : Nat) (hcache : lookupFile cenv.fs CSV_PATH = none) :
    (∃ r, (get_corp_codes cenv).result = .ok r) ∧
    download_annual_reports denv company years = (dl_body denv company years).1 ∧
    (∀ e, denv.listing = .error e →
      download_annual_reports denv company years = denv.fs) := by
  refine ⟨?_, rfl, ?_⟩
  · simp only [get_corp_codes, hcache]
    cases hb : cenv.bulkFetch with
    | error e => exact ⟨none, rfl⟩
    | ok raw => exact ⟨some (buildTable raw), rfl⟩
  · intro e he
    have hb : dl_body denv company years = (denv.fs, some e) := by
      simp only [dl_body, he]
    show (dl_body denv company years).1 = denv.fs
    rw [hb]

/-- Witness for C4 (amended) at concrete failing environments. -/
theorem exceptions_confined_witness :
    (∃ r, (get_corp_codes netFailEnv).result = .ok r) ∧
    download_annual_reports listFailEnv "기아" 3 = (dl_body listFailEnv "기아" 3).1 ∧
    (∀ e, listFailEnv.listing = .error e →
      download_annual_reports listFailEnv "기아" 3 = listFailEnv.fs) :=
  exceptions_confined netFailEnv listFailEnv "기아" 3 rfl

/-- C5: every row of the freshly built table has `corp_code = some s` with `s`
of length exactly 8, and `s` is precisely the zero-fill of the raw code's
string form (left-zero-padded); moreover a cache file written from such a build
is read back as exactly the same table, so the cache-load path returns rows
with the same 8-character codes. The hypothesis — the string form of each raw
code is at most 8 characters — holds for the registry's 8-digit codes, whose
leading zeros the XML number inference may strip but never lengthens. -/
theorem corp_code_eight_chars (raw : List Row)
    (h8 : ∀ r ∈ raw, (r.corp_code.getD "nan").toList.length ≤ 8) :
    (∀ r ∈ buildTable raw, ∃ s, r.corp_code = some s ∧ s.length = 8 ∧
      ∃ r0 ∈ raw, s = zfill 8 (r0.corp_code.getD "nan")) ∧
    (wfTable (buildTable raw) →
      ∀ env : CorpEnv, lookupFile env.fs CSV_PATH = some (writeCsv (buildTable raw)) →
        (get_corp_codes env).result = .ok (some (buildTable raw))) := by
  constructor
  · intro r hr
    simp only [buildTable, List.mem_filter, List.mem_map] at hr
    obtain ⟨⟨r0, hr0, rfl⟩, -⟩ := hr
    exact ⟨zfill 8 (r0.corp_code.getD "nan"), rfl,
      zfill_length 8 _ (h8 r0 hr0), r0, hr0, rfl⟩
  · intro hwf env hc
    have h3 := (gcc_cache_hit env _ hc).2.2
    rw [readCsv_writeCsv _ hwf] at h3
    exact h3

/-- Witness for C5 at a concrete one-row bulk dataset whose code lost its
leading zeros in parsing. -/
theorem corp_code_eight_chars_witness :
    ∃ s, (Row.mk (some "삼성전자") (some "00126380") (some "005930")).corp_code = some s ∧
      s.length = 8 ∧ ∃ r0 ∈ demoRaw, s = zfill 8 (r0.corp_code.getD "nan") :=
  (corp_code_eight_chars demoRaw (by decide)).1
    ⟨some "삼성전자", some "00126380", some "005930"⟩ (by decide)

/-- C8: under a registry table whose rows all carry a registry code (as every
table built by this program does), a watch-list entry whose ticker matches no
registry row appears, with its name and ticker, among the unresolved rows and
never among the fetch targets; conversely every unresolved row is such an
unmatched watch-list entry; and every watch-list entry whose ticker does match
is passed to the fetch step. Resolution only partitions rows — it raises
nothing, so the run is not aborted. -/
theorem unresolved_entries (watch : List (String × String)) (reg : List Row)
    (hreg : ∀ r ∈ reg, r.corp_code.isSome) :
    (∀ w ∈ watch, (∀ r ∈ reg, r.stock_code ≠ some w.2) →
      (⟨w.1, w.2, none, none⟩ : MergedRow) ∈ missingOf (mergeLeft watch reg) ∧
      ∀ m ∈ targetsOf (mergeLeft watch reg), m.stock_code ≠ w.2) ∧
    (∀ m ∈ missingOf (mergeLeft watch reg),
      (m.corp_name_top10, m.stock_code) ∈ watch ∧
      ∀ r ∈ reg, r.stock_code ≠ some m.stock_code) ∧
    (∀ w ∈ watch, (∃ r ∈ reg, r.stock_code = some w.2) →
      ∃ m ∈ targetsOf (mergeLeft watch reg),
        m.corp_name_top10 = w.1 ∧ m.stock_code = w.2) := by
  refine ⟨?_, ?_, ?_⟩
  · intro w hw hnone
    constructor
    · exact List.mem_filter.2
        ⟨mergeLeft_mem_of_unmatched watch reg w hw hnone, rfl⟩
    · intro m hm heq
      obtain ⟨hmm, hsome⟩ := List.mem_filter.1 hm
      obtain ⟨-, hcase⟩ := mergeLeft_mem_cases watch reg m hmm
      cases hcase with
      | inl hcl =>
        rw [hcl.2.1] at hsome
        exact absurd hsome (by decide)
      | inr hcr =>
        obtain ⟨r, hrr, hst, -, -⟩ := hcr
        rw [heq] at hst
        exact hnone r hrr hst
  · intro m hm
    obtain ⟨hmm, hisnone⟩ := List.mem_filter.1 hm
    obtain ⟨hwatch, hcase⟩ := mergeLeft_mem_cases watch reg m hmm
    refine ⟨hwatch, ?_⟩
    cases hcase with
    | inl hcl => exact hcl.2.2
    | inr hcr =>
      obtain ⟨r, hrr, -, -, hcc⟩ := hcr
      have hsome := hreg r hrr
      rw [← hcc] at hsome
      have hn := Option.isNone_iff_eq_none.1 hisnone
      rw [hn] at hsome
      exact absurd hsome (by decide)
  · intro w hw hmatch
    obtain ⟨r, hrr, hst⟩ := hmatch
    refine ⟨⟨w.1, w.2, r.corp_name, r.corp_code⟩, ?_, rfl, rfl⟩
    exact List.mem_filter.2
      ⟨mergeLeft_mem_of_matched watch reg w r hw hrr hst, hreg r hrr⟩

/-- Witness for C8: the spec's unresolvable ticker 999999 is listed as
unresolved against a concrete registry table. -/
theorem unresolved_entries_witness :
    (⟨"테스트", "999999", none, none⟩ : MergedRow) ∈
      missingOf (mergeLeft demoWatch demoReg) :=
  ((unresolved_entries demoWatch demoReg (by decide)).1
    ("테스트", "999999") (by decide) (by decide)).1

end DartReport
